import Mathlib

/-!
Verification of `src/CreateClone.py`, a REST client that clones VMs on a
hypervisor cluster and cleans the clones up again.  The Python values the
script manipulates (JSON request/response bodies), its pure helpers
(`_strip_empty_fields`, `resolve_vm_uuid`, `construct_vm_clone_proto`,
`poll_task`) and its two top-level flows (`clone`, `cleanup`) are embedded
as executable Lean definitions.  Network interaction is modelled by an
oracle (`Env`) that maps each request the script can issue to the response
the server would return; the flows additionally return the list of requests
they issued, in order, so that claims about how many calls are made and in
which order are expressible.
-/

/-- JSON-like Python values.  Lists and dicts are represented as cons
chains inside the same inductive so that every function on them is plain
structural recursion (a dict is a chain of key/value cells, a list a chain
of value cells). -/
inductive JVal where
  | null : JVal
  | bool (b : Bool) : JVal
  | int (n : Int) : JVal
  | str (s : String) : JVal
  | listNil : JVal
  | listCons (hd tl : JVal) : JVal
  | objNil : JVal
  | objCons (k : String) (v tl : JVal) : JVal
deriving DecidableEq, Repr

/-- Builds a dict value from an association list. -/
def mkObj : List (String × JVal) → JVal
  | [] => .objNil
  | (k, v) :: t => .objCons k v (mkObj t)

/-- Builds a list value from a Lean list. -/
def mkList : List JVal → JVal
  | [] => .listNil
  | v :: t => .listCons v (mkList t)

/-- Python truthiness of a JSON value: `None`, `False`, `0`, `""` and the
empty containers are falsy, everything else is truthy. -/
def truthy : JVal → Bool
  | .null => false
  | .bool b => b
  | .int n => n != 0
  | .str s => s != ""
  | .listNil => false
  | .listCons _ _ => true
  | .objNil => false
  | .objCons _ _ _ => true

/-- The inner `strip_dict` of `_strip_empty_fields`: dicts keep the entries
whose value is truthy and still truthy after recursive stripping (the kept
value being the stripped one), lists likewise, scalars pass through. -/
def strip_dict : JVal → JVal
  | .objCons k v tl =>
      if truthy v && truthy (strip_dict v) then .objCons k (strip_dict v) (strip_dict tl)
      else strip_dict tl
  | .listCons v tl =>
      if truthy v && truthy (strip_dict v) then .listCons (strip_dict v) (strip_dict tl)
      else strip_dict tl
  | v => v

/-- Wrapper with the name the Python method exposes. -/
def strip_empty_fields (proto : JVal) : JVal := strip_dict proto

/-- Python dict lookup on a dict value (keys of a real dict are unique,
so first match suffices). -/
def getField : JVal → String → Option JVal
  | .objCons k2 v tl, k => if k2 = k then some v else getField tl k
  | _, _ => none

/-- C8: the falsy-field pruning function is idempotent - stripping an
already-stripped structure (nested dicts, lists and scalars) returns it
unchanged. -/
theorem strip_dict_idempotent : ∀ v : JVal, strip_dict (strip_dict v) = strip_dict v := by
  intro v
  induction v with
  | null => rfl
  | bool b => rfl
  | int n => rfl
  | str s => rfl
  | listNil => rfl
  | objNil => rfl
  | listCons hd tl ih_hd ih_tl =>
      by_cases h : (truthy hd && truthy (strip_dict hd)) = true
      · obtain ⟨h1, h2⟩ := Bool.and_eq_true _ _ |>.mp h
        simp [strip_dict, h1, h2, ih_hd, ih_tl]
      · simp [strip_dict, h, ih_tl]
  | objCons k v tl ih_v ih_tl =>
      by_cases h : (truthy v && truthy (strip_dict v)) = true
      · obtain ⟨h1, h2⟩ := Bool.and_eq_true _ _ |>.mp h
        simp [strip_dict, h1, h2, ih_v, ih_tl]
      · simp [strip_dict, h, ih_tl]

/-! ## Name resolution -/

/-- Error taxonomy of the script. Every Python `raise Exception(...)` (and
the one implicit `IndexError`) is mapped to the constructor describing it. -/
inductive Err where
  | notFound (name : String)
  | ambiguous (name : String)
  | httpError (status : Nat)
  | indexError
  | taskFailed (task code detail : String)
  | invalidArgument
  | unknownAction (a : String)
  | stillPolling (task : String)
deriving DecidableEq, Repr

/-- Decidable equality for `Except`, so that concrete runs of the
fallible operations can be checked by `decide`. -/
instance instDecEqExcept {ε α : Type} [DecidableEq ε] [DecidableEq α] :
    DecidableEq (Except ε α) := fun x y =>
  match x, y with
  | .ok a, .ok b =>
      match decEq a b with
      | isTrue h => isTrue (by rw [h])
      | isFalse h => isFalse (by simp [h])
  | .error a, .error b =>
      match decEq a b with
      | isTrue h => isTrue (by rw [h])
      | isFalse h => isFalse (by simp [h])
  | .ok _, .error _ => isFalse (by simp)
  | .error _, .ok _ => isFalse (by simp)

/-- One entry of the `entities` array of the name-filter query response. -/
structure VmEntity where
  vmId : String
deriving DecidableEq, Repr

/-- Parsed body of `GET <gateway>/vms?filterCriteria=vm_name==<name>`:
`metadata.count` and the `entities` array. -/
structure VmsResponse where
  count : Int
  entities : List VmEntity
deriving DecidableEq, Repr

/-- Python `s.rsplit(":", 1)[-1]`: the suffix after the last `":"`, or the
whole string when there is no `":"` - computed as the reverse of the
longest colon-free suffix of the character list. -/
def rsplit_suffix (s : String) : String :=
  ⟨(s.data.reverse.takeWhile (fun c => c ≠ ':')).reverse⟩

/-- The decision core of `resolve_vm_uuid`, applied to the parsed response
of a successful name-filter query: the uniqueness checks run only when
`check_unique` is set, then `entities[0]["vmId"]` is dereferenced
unconditionally (an empty array raises an IndexError) and the
cluster-prefix delimiter is stripped. -/
def resolve_vm_uuid (vm_name : String) (check_unique : Bool) (resp : VmsResponse) :
    Except Err String :=
  if check_unique ∧ resp.count = 0 then .error (.notFound vm_name)
  else if check_unique ∧ 1 < resp.count then .error (.ambiguous vm_name)
  else
    match resp.entities with
    | [] => .error .indexError
    | e :: _ => .ok (rsplit_suffix e.vmId)

/-- C1: with uniqueness enforced, a zero-count response fails with
NotFoundError, a count above one fails with AmbiguousNameError, and a
count of exactly one returns the suffix after the last delimiter of the
first entity's `vmId`. -/
theorem resolve_vm_uuid_enforce_unique (name : String) (resp : VmsResponse) :
    (resp.count = 0 → resolve_vm_uuid name true resp = .error (.notFound name)) ∧
    (1 < resp.count → resolve_vm_uuid name true resp = .error (.ambiguous name)) ∧
    (∀ e rest, resp.count = 1 → resp.entities = e :: rest →
      resolve_vm_uuid name true resp = .ok (rsplit_suffix e.vmId)) := by
  refine ⟨fun h0 => ?_, fun h1 => ?_, fun e rest h1 hent => ?_⟩
  · simp [resolve_vm_uuid, h0]
  · have : ¬ resp.count = 0 := by omega
    simp [resolve_vm_uuid, this, h1]
  · simp [resolve_vm_uuid, h1, hent]

/-- Witness for C1 at a concrete response whose single entity carries a
cluster-prefixed identifier. -/
theorem resolve_vm_uuid_enforce_unique_witness :
    resolve_vm_uuid "web01" true ⟨1, [⟨"00051a76::f9b2-4c"⟩]⟩ = .ok "f9b2-4c" :=
  (resolve_vm_uuid_enforce_unique "web01" ⟨1, [⟨"00051a76::f9b2-4c"⟩]⟩).2.2
    ⟨"00051a76::f9b2-4c"⟩ [] rfl rfl

/-- C6: without uniqueness enforcement the count validations are skipped -
an empty entity list fails with the index error, and a non-empty one
yields the first entity's stripped identifier no matter what the reported
count is. -/
theorem resolve_vm_uuid_no_enforce (name : String) (resp : VmsResponse) :
    (resp.entities = [] → resolve_vm_uuid name false resp = .error .indexError) ∧
    (∀ e rest, resp.entities = e :: rest →
      resolve_vm_uuid name false resp = .ok (rsplit_suffix e.vmId)) := by
  constructor
  · intro h; simp [resolve_vm_uuid, h]
  · intro e rest h; simp [resolve_vm_uuid, h]

/-- Witness for C6: a zero-match response (count 0, no entities) under a
non-enforcing call fails with the index error rather than NotFoundError. -/
theorem resolve_vm_uuid_no_enforce_witness :
    resolve_vm_uuid "web01-0" false ⟨0, []⟩ = .error .indexError :=
  (resolve_vm_uuid_no_enforce "web01-0" ⟨0, []⟩).1 rfl

/-! ## Task polling -/

/-- The `metaResponse` completion field of a poll response body. -/
structure MetaResp where
  error : String
  errorDetail : String
deriving DecidableEq, Repr

/-- One server answer to a poll request: either a non-OK HTTP status (the
loop raises on it) or a body whose `taskInfo.metaResponse` field may be
absent (task still pending). -/
inductive PollEvent where
  | httpErr (status : Nat)
  | body (mr : Option MetaResp)
deriving DecidableEq, Repr

/-- Outcome of the poll loop run against a finite script of responses. -/
inductive PollOutcome where
  | ok
  | httpError (status : Nat)
  | taskFailed (task code detail : String)
  | pending
deriving DecidableEq, Repr

/-- The `poll_task` loop run against a script of successive server
responses: returns how many poll requests were issued and the outcome.
`pending` means the script ended with the loop still going (the real loop
would keep polling - it has no timeout). -/
def poll_task_run (task : String) : List PollEvent → Nat × PollOutcome
  | [] => (0, .pending)
  | .httpErr s :: _ => (1, .httpError s)
  | .body none :: rest =>
      let r := poll_task_run task rest
      (r.1 + 1, r.2)
  | .body (some mr) :: _ =>
      (1, if mr.error = "kNoError" then .ok else .taskFailed task mr.error mr.errorDetail)

/-- C3: the first response carrying the completion field decides the loop -
after any number of field-omitting responses, a sentinel error returns
normally and any other error fails with that code and detail, and the
responses after it are never requested. -/
theorem poll_task_first_completion (t : String) (pre rest : List PollEvent) (mr : MetaResp)
    (hpre : ∀ e ∈ pre, e = .body none) :
    poll_task_run t (pre ++ .body (some mr) :: rest) =
      (pre.length + 1,
       if mr.error = "kNoError" then .ok else .taskFailed t mr.error mr.errorDetail) := by
  induction pre with
  | nil => simp [poll_task_run]
  | cons e es ih =>
      have he : e = .body none := hpre e (by simp)
      have hes : ∀ e2 ∈ es, e2 = PollEvent.body none := fun e2 h2 => hpre e2 (by simp [h2])
      subst he
      simp [poll_task_run, ih hes]

/-- Witness for C3: two pending responses followed by a sentinel completion
give a normal return after three polls. -/
theorem poll_task_first_completion_witness :
    poll_task_run "t1" ([.body none, .body none] ++ .body (some ⟨"kNoError", ""⟩) :: []) =
      (3, .ok) := by
  have h := poll_task_first_completion "t1" [.body none, .body none] [] ⟨"kNoError", ""⟩
    (by intro e he; simp at he; simp [he])
  simpa using h

/-- C7: the poll loop's transition structure - a field-omitting success
response is the only answer after which another poll is issued (the count
grows and the tail is consulted), a response carrying the field terminates
at once whatever follows, an HTTP failure terminates at once, and a script
of only field-omitting responses of any length leaves the loop still
pending (there is no client-side timeout). -/
theorem poll_task_transitions (t : String) :
    (∀ es : List PollEvent, (∀ e ∈ es, e = .body none) →
       poll_task_run t es = (es.length, .pending)) ∧
    (∀ es, poll_task_run t (.body none :: es) =
       ((poll_task_run t es).1 + 1, (poll_task_run t es).2)) ∧
    (∀ mr es, poll_task_run t (.body (some mr) :: es) =
       (1, if mr.error = "kNoError" then .ok else .taskFailed t mr.error mr.errorDetail)) ∧
    (∀ s es, poll_task_run t (.httpErr s :: es) = (1, .httpError s)) := by
  refine ⟨?_, fun es => by simp [poll_task_run], fun mr es => by simp [poll_task_run],
    fun s es => by simp [poll_task_run]⟩
  intro es hes
  induction es with
  | nil => simp [poll_task_run]
  | cons e es ih =>
      have he : e = .body none := hes e (by simp)
      have hes2 : ∀ e2 ∈ es, e2 = PollEvent.body none := fun e2 h2 => hes e2 (by simp [h2])
      subst he
      simp [poll_task_run, ih hes2]

/-- Witness for C7: a script of four field-omitting responses leaves the
loop pending after four polls. -/
theorem poll_task_transitions_witness :
    poll_task_run "t1" [.body none, .body none, .body none, .body none] = (4, .pending) := by
  have h := (poll_task_transitions "t1").1 [.body none, .body none, .body none, .body none]
    (by intro e he; simp at he; simp [he])
  simpa using h

/-! ## Clone-spec construction -/

/-- The `config` sub-object of the VM descriptor, as consumed by
`construct_vm_clone_proto` (`numVcpus`, `memoryMb`, `name`). -/
structure VmConfig where
  numVcpus : Int
  memoryMb : Int
  name : String
deriving DecidableEq, Repr

/-- The VM descriptor returned by `GET <mgmt>/vms/<id>`; the script reads
only its `config` field. -/
structure VmInfo where
  config : VmConfig
deriving DecidableEq, Repr

/-- Name given to the i-th clone: `name + "-" + str(i)`. -/
def clone_name (base : String) (i : Nat) : String := base ++ "-" ++ toString i

/-- A clone name is never the empty string (it contains the dash). -/
theorem clone_name_ne_empty (base : String) (i : Nat) : clone_name base i ≠ "" := by
  intro h
  have hd := congrArg String.data h
  simp [clone_name, String.data_append] at hd

/-- The spec appended for index i: the proto dict seeded from the
descriptor's config (with literal `"false"`, empty `uuid`, empty `vmNics`
and empty timestamp), its name overwritten with the indexed clone name,
then stripped of falsy fields.  The Python loop reuses one dict and
overwrites only `"name"` before stripping, so each appended spec equals
the dict freshly built with the indexed name. -/
def clone_spec (cfg : VmConfig) (i : Nat) : JVal :=
  strip_empty_fields (mkObj
    [("numVcpus", .int cfg.numVcpus),
     ("overrideNetworkConfig", .str "false"),
     ("name", .str (clone_name cfg.name i)),
     ("memoryMb", .int cfg.memoryMb),
     ("uuid", .str ""),
     ("vmNics", .listNil),
     ("sourceVMLogicalTimestamp", .str "")])

/-- The `specList` built by `construct_vm_clone_proto`: one stripped spec
per index in `range(0, num_clones)`. -/
def spec_list (cfg : VmConfig) (n : Nat) : List JVal :=
  (List.range n).map (clone_spec cfg)

/-- The full request body `{"specList": [...]}` of the clone POST. -/
def construct_vm_clone_proto (cfg : VmConfig) (n : Nat) : JVal :=
  mkObj [("specList", mkList (spec_list cfg n))]

/-- The name field survives pruning and carries the indexed clone name. -/
theorem getField_clone_spec_name (cfg : VmConfig) (i : Nat) :
    getField (clone_spec cfg i) "name" = some (.str (clone_name cfg.name i)) := by
  have hname : (clone_name cfg.name i != "") = true := by
    simp only [bne_iff_ne, ne_eq]
    exact clone_name_ne_empty cfg.name i
  by_cases h1 : cfg.numVcpus = 0 <;>
    simp [clone_spec, strip_empty_fields, mkObj, strip_dict, truthy, getField, h1, hname]

/-- C2: `buildCloneSpecs` produces exactly N specs and the i-th one's name
field is the base name, a dash, and the decimal index i. -/
theorem build_clone_specs (cfg : VmConfig) (n : Nat) :
    (spec_list cfg n).length = n ∧
    (∀ i, i < n → ∃ s, (spec_list cfg n)[i]? = some s ∧
      getField s "name" = some (.str (clone_name cfg.name i))) := by
  constructor
  · simp [spec_list]
  · intro i hi
    refine ⟨clone_spec cfg i, ?_, getField_clone_spec_name cfg i⟩
    simp [spec_list, List.getElem?_map, List.getElem?_range, hi]

/-- Witness for C2 at a concrete config and count 2, index 1. -/
theorem build_clone_specs_witness :
    (spec_list ⟨2, 1024, "web01"⟩ 2).length = 2 ∧
    (∃ s, (spec_list ⟨2, 1024, "web01"⟩ 2)[1]? = some s ∧
      getField s "name" = some (.str (clone_name "web01" 1))) :=
  ⟨(build_clone_specs ⟨2, 1024, "web01"⟩ 2).1,
   (build_clone_specs ⟨2, 1024, "web01"⟩ 2).2 1 (by decide)⟩

/-- Full computation of a stripped spec when all three config fields are
truthy: the kept entries are exactly numVcpus, overrideNetworkConfig,
name and memoryMb, in seeding order. -/
theorem clone_spec_eq_of_truthy (cfg : VmConfig) (i : Nat)
    (h1 : truthy (.int cfg.numVcpus) = true)
    (h2 : truthy (.int cfg.memoryMb) = true) :
    clone_spec cfg i = mkObj
      [("numVcpus", .int cfg.numVcpus),
       ("overrideNetworkConfig", .str "false"),
       ("name", .str (clone_name cfg.name i)),
       ("memoryMb", .int cfg.memoryMb)] := by
  have hname : (clone_name cfg.name i != "") = true := by
    simp only [bne_iff_ne, ne_eq]
    exact clone_name_ne_empty cfg.name i
  simp only [truthy] at h1 h2
  simp [clone_spec, strip_empty_fields, mkObj, strip_dict, truthy, h1, h2, hname]

/-- C10: with truthy numVcpus, memoryMb and name in the descriptor config,
every submitted spec carries `overrideNetworkConfig` with the (truthy)
string `"false"`, and carries none of `uuid`, `vmNics`,
`sourceVMLogicalTimestamp` - those are seeded empty and always pruned. -/
theorem clone_specs_pruned (cfg : VmConfig) (n : Nat)
    (h1 : truthy (.int cfg.numVcpus) = true)
    (h2 : truthy (.int cfg.memoryMb) = true)
    (_h3 : truthy (.str cfg.name) = true) :
    ∀ s ∈ spec_list cfg n,
      getField s "overrideNetworkConfig" = some (.str "false") ∧
      truthy (.str "false") = true ∧
      getField s "uuid" = none ∧
      getField s "vmNics" = none ∧
      getField s "sourceVMLogicalTimestamp" = none := by
  intro s hs
  simp only [spec_list, List.mem_map] at hs
  obtain ⟨i, _, rfl⟩ := hs
  rw [clone_spec_eq_of_truthy cfg i h1 h2]
  refine ⟨?_, by decide, ?_, ?_, ?_⟩ <;> simp [mkObj, getField]

/-- Witness for C10 at a concrete truthy config, count 1. -/
theorem clone_specs_pruned_witness :
    getField (clone_spec ⟨2, 1024, "web01"⟩ 0) "overrideNetworkConfig" = some (.str "false") ∧
    truthy (.str "false") = true ∧
    getField (clone_spec ⟨2, 1024, "web01"⟩ 0) "uuid" = none ∧
    getField (clone_spec ⟨2, 1024, "web01"⟩ 0) "vmNics" = none ∧
    getField (clone_spec ⟨2, 1024, "web01"⟩ 0) "sourceVMLogicalTimestamp" = none :=
  clone_specs_pruned ⟨2, 1024, "web01"⟩ 1 (by decide) (by decide) (by decide)
    (clone_spec ⟨2, 1024, "web01"⟩ 0)
    (by exact List.mem_map.mpr ⟨0, List.mem_range.mpr (by decide), rfl⟩)

/-! ## Network model and the two flows -/

/-- A network request the script can issue, identified by endpoint and
payload (the gateway name-filter query, the descriptor GET, the clone
POST with its JSON body, the VM DELETE, and the task poll GET). -/
inductive Req where
  | getVms (filterName : String)
  | getVm (uuid : String)
  | postClone (uuid : String) (body : JVal)
  | deleteVm (uuid : String)
  | pollTask (task : String)
deriving DecidableEq, Repr

/-- Response oracle: what the server answers to each request.  An
`Except.error s` is a non-OK HTTP status `s` (the script raises on it),
an `Except.ok` carries the parsed JSON body the script reads.  Poll
responses form a finite script per task id. -/
structure Env where
  vmsResp : String → Except Nat VmsResponse
  vmInfoResp : String → Except Nat VmInfo
  cloneResp : String → JVal → Except Nat String
  deleteResp : String → Except Nat String
  pollEvents : String → List PollEvent

/-- Requests issued and outcome of running the `poll_task` loop for one
task against the oracle's response script for it.  An exhausted script
maps to the `stillPolling` marker (the real loop would poll forever). -/
def poll_run (task : String) (events : List PollEvent) : List Req × Except Err Unit :=
  let r := poll_task_run task events
  (List.replicate r.1 (.pollTask task),
   match r.2 with
   | .ok => .ok ()
   | .httpError s => .error (.httpError s)
   | .taskFailed t c d => .error (.taskFailed t c d)
   | .pending => .error (.stillPolling task))

/-- The `clone` flow (`clone` + `create_clones` in the script): resolve
the name with uniqueness enforced, fetch the descriptor, build the full
spec list, POST it once, and poll the single returned task. -/
def clone_flow (env : Env) (name : String) (n : Nat) : List Req × Except Err Unit :=
  match env.vmsResp name with
  | .error s => ([.getVms name], .error (.httpError s))
  | .ok resp =>
    match resolve_vm_uuid name true resp with
    | .error e => ([.getVms name], .error e)
    | .ok uuid =>
      match env.vmInfoResp uuid with
      | .error s => ([.getVms name, .getVm uuid], .error (.httpError s))
      | .ok info =>
        let body := construct_vm_clone_proto info.config n
        match env.cloneResp uuid body with
        | .error s => ([.getVms name, .getVm uuid, .postClone uuid body], .error (.httpError s))
        | .ok task =>
          let p := poll_run task (env.pollEvents task)
          ([.getVms name, .getVm uuid, .postClone uuid body] ++ p.1, p.2)

/-- The body of one iteration of `cleanup_clones`: resolve the indexed
clone name with `check_unique` falsy, DELETE the resolved VM, and poll
the returned task. -/
def block_run (env : Env) (name : String) : List Req × Except Err Unit :=
  match env.vmsResp name with
  | .error s => ([.getVms name], .error (.httpError s))
  | .ok resp =>
    match resolve_vm_uuid name false resp with
    | .error e => ([.getVms name], .error e)
    | .ok uuid =>
      match env.deleteResp uuid with
      | .error s => ([.getVms name, .deleteVm uuid], .error (.httpError s))
      | .ok task =>
        let p := poll_run task (env.pollEvents task)
        ([.getVms name, .deleteVm uuid] ++ p.1, p.2)

/-- The `for i in range(0, num_clones)` loop of `cleanup_clones`, started
at index `i` with `k` iterations left; a raise aborts the loop. -/
def cleanup_aux (env : Env) (base : String) : Nat → Nat → List Req × Except Err Unit
  | _, 0 => ([], .ok ())
  | i, k + 1 =>
    match block_run env (clone_name base i) with
    | (tr, .error e) => (tr, .error e)
    | (tr, .ok _) =>
      let r := cleanup_aux env base (i + 1) k
      (tr ++ r.1, r.2)

/-- The `cleanup_clones` method: iterate the delete block over indices
`0 .. num_clones - 1`. -/
def cleanup_clones (env : Env) (base : String) (n : Nat) : List Req × Except Err Unit :=
  cleanup_aux env base 0 n

/-- Concatenated request traces of the delete blocks for indices
`i .. i + k - 1`, in increasing index order. -/
def blocks_trace (env : Env) (base : String) : Nat → Nat → List Req
  | _, 0 => []
  | i, k + 1 => (block_run env (clone_name base i)).1 ++ blocks_trace env base (i + 1) k

/-- Success case of the cleanup loop, generalized over the start index:
when every remaining block succeeds, the loop runs all of them and its
trace is their concatenation in index order. -/
theorem cleanup_aux_ok (env : Env) (base : String) :
    ∀ k i, (∀ d, d < k → (block_run env (clone_name base (i + d))).2 = .ok ()) →
      cleanup_aux env base i k = (blocks_trace env base i k, .ok ()) := by
  intro k
  induction k with
  | zero => intro i _; rfl
  | succ k ih =>
      intro i h
      have h0 : (block_run env (clone_name base i)).2 = .ok () := by
        simpa using h 0 (Nat.succ_pos k)
      have hrest : ∀ d, d < k → (block_run env (clone_name base (i + 1 + d))).2 = .ok () := by
        intro d hd
        have hidx : i + (d + 1) = i + 1 + d := by omega
        have := h (d + 1) (by omega)
        rwa [hidx] at this
      cases hbeq : block_run env (clone_name base i) with
      | mk tr r =>
          rw [hbeq] at h0
          simp only at h0
          subst h0
          simp [cleanup_aux, hbeq, ih (i + 1) hrest, blocks_trace]

/-- Failure case of the cleanup loop, generalized over the start index:
when the blocks before relative index j succeed and block j fails, the
loop stops there - the trace is the successful blocks followed by the
failing block's requests, and the error propagates. -/
theorem cleanup_aux_err (env : Env) (base : String) :
    ∀ j k i e, j < k →
      (∀ d, d < j → (block_run env (clone_name base (i + d))).2 = .ok ()) →
      (block_run env (clone_name base (i + j))).2 = .error e →
      cleanup_aux env base i k =
        (blocks_trace env base i j ++ (block_run env (clone_name base (i + j))).1, .error e) := by
  intro j
  induction j with
  | zero =>
      intro k i e hjk _ herr
      cases k with
      | zero => omega
      | succ k =>
          simp only [Nat.add_zero] at herr
          cases hbeq : block_run env (clone_name base i) with
          | mk tr r =>
              rw [hbeq] at herr
              simp only at herr
              subst herr
              simp [cleanup_aux, hbeq, blocks_trace]
  | succ j ih =>
      intro k i e hjk hok herr
      cases k with
      | zero => omega
      | succ k =>
          have h0 : (block_run env (clone_name base i)).2 = .ok () := by
            simpa using hok 0 (Nat.succ_pos j)
          have hok2 : ∀ d, d < j → (block_run env (clone_name base (i + 1 + d))).2 = .ok () := by
            intro d hd
            have hidx : i + (d + 1) = i + 1 + d := by omega
            have := hok (d + 1) (by omega)
            rwa [hidx] at this
          have herr2 : (block_run env (clone_name base (i + 1 + j))).2 = .error e := by
            have hidx : i + (j + 1) = i + 1 + j := by omega
            rwa [hidx] at herr
          cases hbeq : block_run env (clone_name base i) with
          | mk tr r =>
              rw [hbeq] at h0
              simp only at h0
              subst h0
              have hidx : i + 1 + j = i + (j + 1) := by omega
              simp [cleanup_aux, hbeq, ih k (i + 1) e (by omega) hok2 herr2, blocks_trace, hidx]

/-- C4: the cleanup flow works through indices 0 .. N-1 in increasing
order, running resolve + delete + poll for `base-i` (the content of
`block_run`) to completion before touching index i+1; if every block
succeeds the trace is all N blocks in order, and on the first failing
block it stops with that error, issuing no request for any later index. -/
theorem cleanup_clones_spec (env : Env) (base : String) (n : Nat) :
    ((∀ i, i < n → (block_run env (clone_name base i)).2 = .ok ()) →
       cleanup_clones env base n = (blocks_trace env base 0 n, .ok ())) ∧
    (∀ j e, j < n → (∀ i, i < j → (block_run env (clone_name base i)).2 = .ok ()) →
       (block_run env (clone_name base j)).2 = .error e →
       cleanup_clones env base n =
         (blocks_trace env base 0 j ++ (block_run env (clone_name base j)).1, .error e)) := by
  constructor
  · intro h
    exact cleanup_aux_ok env base n 0 (fun d hd => by simpa using h d hd)
  · intro j e hj hok herr
    have := cleanup_aux_err env base j n 0 e hj (fun d hd => by simpa using hok d hd)
      (by simpa using herr)
    simpa using this

/-- A concrete oracle on which every step succeeds: each name filter
matches exactly one entity `"c::u1"`, the descriptor holds a small
config, every mutation returns task `"t1"`, and the task completes with
the sentinel on the first poll. -/
def env_ok : Env where
  vmsResp := fun _ => .ok ⟨1, [⟨"c::u1"⟩]⟩
  vmInfoResp := fun _ => .ok ⟨⟨2, 1024, "web01"⟩⟩
  cloneResp := fun _ _ => .ok "t1"
  deleteResp := fun _ => .ok "t1"
  pollEvents := fun _ => [.body (some ⟨"kNoError", ""⟩)]

/-- Witness for C4: on the all-success oracle, cleaning up two clones
issues resolve, delete and poll for "web01-0" and then for "web01-1". -/
theorem cleanup_clones_spec_witness :
    cleanup_clones env_ok "web01" 2 =
      ([.getVms "web01-0", .deleteVm "u1", .pollTask "t1",
        .getVms "web01-1", .deleteVm "u1", .pollTask "t1"], .ok ()) :=
  ((cleanup_clones_spec env_ok "web01" 2).1 (by decide)).trans (by decide)

/-- Request classifiers used to count calls of each kind in a trace. -/
def is_resolve_req : Req → Bool
  | .getVms _ => true
  | _ => false

/-- True exactly on descriptor fetches. -/
def is_descriptor_req : Req → Bool
  | .getVm _ => true
  | _ => false

/-- True exactly on clone submissions. -/
def is_clone_post : Req → Bool
  | .postClone _ _ => true
  | _ => false

/-- True exactly on task polls. -/
def is_poll_req : Req → Bool
  | .pollTask _ => true
  | _ => false

/-- Counting with a predicate that rejects the replicated element gives
zero. -/
theorem countP_replicate_false {α : Type} (p : α → Bool) (a : α) (n : Nat)
    (h : p a = false) : (List.replicate n a).countP p = 0 := by
  induction n with
  | zero => rfl
  | succ n ih => simp [List.replicate_succ, List.countP_cons, h, ih]

/-- C5: on a run whose stages all succeed, the clone flow issues exactly
one name-filter query, one descriptor fetch and one clone POST - the one
POST body carrying all N specs - followed only by polls of the single
returned task; the flow never issues N submissions nor polls N tasks. -/
theorem clone_flow_spec (env : Env) (name : String) (n : Nat) (resp : VmsResponse)
    (uuid : String) (info : VmInfo) (task : String)
    (h1 : env.vmsResp name = .ok resp)
    (h2 : resolve_vm_uuid name true resp = .ok uuid)
    (h3 : env.vmInfoResp uuid = .ok info)
    (h4 : env.cloneResp uuid (construct_vm_clone_proto info.config n) = .ok task) :
    clone_flow env name n =
      ([.getVms name, .getVm uuid, .postClone uuid (construct_vm_clone_proto info.config n)]
         ++ (poll_run task (env.pollEvents task)).1,
       (poll_run task (env.pollEvents task)).2) ∧
    (clone_flow env name n).1.countP is_resolve_req = 1 ∧
    (clone_flow env name n).1.countP is_descriptor_req = 1 ∧
    (clone_flow env name n).1.countP is_clone_post = 1 ∧
    (spec_list info.config n).length = n ∧
    (∀ r ∈ (clone_flow env name n).1, is_poll_req r = true → r = .pollTask task) := by
  have heq : clone_flow env name n =
      ([.getVms name, .getVm uuid, .postClone uuid (construct_vm_clone_proto info.config n)]
         ++ (poll_run task (env.pollEvents task)).1,
       (poll_run task (env.pollEvents task)).2) := by
    simp [clone_flow, h1, h2, h3, h4, poll_run]
  refine ⟨heq, ?_, ?_, ?_, by simp [spec_list], ?_⟩ <;> rw [heq]
  · simp [List.countP_append, List.countP_cons, is_resolve_req, poll_run,
      countP_replicate_false]
  · simp [List.countP_append, List.countP_cons, is_descriptor_req, poll_run,
      countP_replicate_false]
  · simp [List.countP_append, List.countP_cons, is_clone_post, poll_run,
      countP_replicate_false]
  · intro r hr hp
    simp only [List.mem_append, List.mem_cons, List.not_mem_nil, or_false, poll_run,
      List.mem_replicate] at hr
    rcases hr with (rfl | rfl | rfl) | ⟨-, rfl⟩ <;> first | rfl | simp [is_poll_req] at hp

/-- Witness for C5: on the all-success oracle with count 3, the flow's
whole trace is one resolve, one fetch, one POST (with the three specs in
its body) and one poll of task "t1". -/
theorem clone_flow_spec_witness :
    clone_flow env_ok "web01" 3 =
      ([.getVms "web01", .getVm "u1",
        .postClone "u1" (construct_vm_clone_proto ⟨2, 1024, "web01"⟩ 3), .pollTask "t1"],
       .ok ()) :=
  ((clone_flow_spec env_ok "web01" 3 ⟨1, [⟨"c::u1"⟩]⟩ "u1" ⟨⟨2, 1024, "web01"⟩⟩ "t1"
      rfl rfl rfl rfl).1).trans (by decide)

/-! ## Command dispatcher -/

/-- The gflags-supplied invocation parameters: `--action`, `--cluster_ip`,
`--username`, `--password`, `--vm_name` (all strings, the first two and
the name defaulting to None) and `--num_clones` (default 1). -/
structure Flags where
  action : Option String
  cluster_ip : Option String
  username : String
  password : String
  vm_name : Option String
  num_clones : Option Nat
deriving DecidableEq, Repr

/-- The `clone(c)` entry point: asserts the VM name is present, then runs
the clone flow. -/
def clone_cmd (env : Env) (vm_name : Option String) (n : Nat) : List Req × Except Err Unit :=
  match vm_name with
  | none => ([], .error .invalidArgument)
  | some name => clone_flow env name n

/-- The `cleanup(c)` entry point: asserts the VM name is present, then
runs the cleanup flow. -/
def cleanup_cmd (env : Env) (vm_name : Option String) (n : Nat) : List Req × Except Err Unit :=
  match vm_name with
  | none => ([], .error .invalidArgument)
  | some name => cleanup_clones env name n

/-- The `main()` dispatcher: asserts action, cluster_ip and num_clones are
present, constructs the `RestApiClient` (whose `requests.Session()` setup
performs no network I/O, hence contributes nothing to the trace), and
routes on the action string, aborting on an unrecognized one. -/
def main_run (env : Env) (f : Flags) : List Req × Except Err Unit :=
  match f.action with
  | none => ([], .error .invalidArgument)
  | some a =>
    match f.cluster_ip with
    | none => ([], .error .invalidArgument)
    | some _ =>
      match f.num_clones with
      | none => ([], .error .invalidArgument)
      | some n =>
        if a = "clone" then clone_cmd env f.vm_name n
        else if a = "cleanup" then cleanup_cmd env f.vm_name n
        else ([], .error (.unknownAction a))

/-- C9: with the VM name absent, both recognized actions fail with the
invalid-argument error and an empty request trace (no network call is
ever issued - client construction alone performs none), and an action
other than the two recognized values aborts with the unknown-action
error, likewise before any network call. -/
theorem main_run_guards (env : Env) (f : Flags) :
    (f.vm_name = none → f.action = some "clone" →
       main_run env f = ([], .error .invalidArgument)) ∧
    (f.vm_name = none → f.action = some "cleanup" →
       main_run env f = ([], .error .invalidArgument)) ∧
    (∀ a c m, f.action = some a → f.cluster_ip = some c → f.num_clones = some m →
       a ≠ "clone" → a ≠ "cleanup" →
       main_run env f = ([], .error (.unknownAction a))) := by
  refine ⟨fun hv ha => ?_, fun hv ha => ?_, fun a c m ha hc hm h1 h2 => ?_⟩
  · cases hc : f.cluster_ip <;> cases hm : f.num_clones <;>
      simp [main_run, ha, hv, hc, hm, clone_cmd]
  · cases hc : f.cluster_ip <;> cases hm : f.num_clones <;>
      simp [main_run, ha, hv, hc, hm, cleanup_cmd]
  · simp [main_run, ha, hc, hm, h1, h2]

/-- Invocation with clone action but no VM name. -/
def flags_missing_name : Flags :=
  ⟨some "clone", some "10.1.1.1", "admin", "admin", none, some 1⟩

/-- Invocation with an unrecognized action. -/
def flags_bad_action : Flags :=
  ⟨some "destroy", some "10.1.1.1", "admin", "admin", some "web01", some 1⟩

/-- Witness for C9 at the two concrete invocations. -/
theorem main_run_guards_witness :
    main_run env_ok flags_missing_name = ([], .error .invalidArgument) ∧
    main_run env_ok flags_bad_action = ([], .error (.unknownAction "destroy")) :=
  ⟨(main_run_guards env_ok flags_missing_name).1 rfl rfl,
   (main_run_guards env_ok flags_bad_action).2.2 "destroy" "10.1.1.1" 1 rfl rfl rfl
     (by decide) (by decide)⟩
